import Mathlib

/-!
# Verification of the `ray_tracer` core (src/lib.rs, src/rendering.rs, src/scene.rs)

Shallow embedding conventions:
* `f32`/`f64` values are modelled as exact rationals (`ℚ`).  Transcendental
  operations of the floating-point library (`sqrt`, `tan`, `atan2`, `acos`,
  the constant `PI`, degree-to-radian conversion) are threaded through a
  `RealOps` record of rational-valued stand-ins; theorems that depend on a
  square root carry explicit hypotheses pinning the stand-in to an exact
  square root at the radicands that actually occur, and closed evaluations
  instantiate the record with concrete tables.
* Integer narrowing follows Rust semantics: float-to-integer `as` casts
  truncate toward zero and saturate at the target bounds (NaN casts to 0),
  `u32 as i32` reinterprets the bit pattern, `i32` `%` is the truncated
  remainder with its unconditional panics (zero divisor, the overflowing
  `i32::MIN % -1`) modelled by `i32_rem_checked`/`wrap_checked` returning
  `none`, and `i32` addition is modelled with two's-complement wrapping
  (release-profile semantics).
* For `wrap`, whose totality over special floating values is claimed, the
  `f32` argument is modelled by `F32`: either a finite rational, `inf`,
  `ninf` or `nan`.
* Fallible operations (`Sphere::intersect`, `Plane::intersect`,
  `Scene::trace`) return `Option`; the `assert!` in `Ray::create_prime`
  is modelled by an `Option` result (`none` = panic).
-/

/-- Rational stand-ins for the floating-point library functions used by the
source: `f64::sqrt`/`f32::sqrt` (`sq`), `f64::tan` (`tan`),
`f64::to_radians` (`toRad`), `f64::atan2` (`atan2`), `f64::acos` (`acos`)
and the constant `std::f32::consts::PI` (`pi`). -/
structure RealOps where
  sq : ℚ → ℚ
  tan : ℚ → ℚ
  toRad : ℚ → ℚ
  atan2 : ℚ → ℚ → ℚ
  acos : ℚ → ℚ
  pi : ℚ

/-- `struct Color { red, green, blue: f32 }` from src/scene.rs. -/
structure Color where
  red : ℚ
  green : ℚ
  blue : ℚ
  deriving DecidableEq

/-- `impl Add for Color` (component-wise). -/
instance : Add Color := ⟨fun a b => ⟨a.red + b.red, a.green + b.green, a.blue + b.blue⟩⟩

/-- `impl Mul<Color> for Color` (component-wise). -/
instance : Mul Color := ⟨fun a b => ⟨a.red * b.red, a.green * b.green, a.blue * b.blue⟩⟩

/-- `impl Mul<f32> for Color` (scalar scaling). -/
instance : HMul Color ℚ Color := ⟨fun c q => ⟨c.red * q, c.green * q, c.blue * q⟩⟩

/-- `struct Vec3 { x, y, z: f64 }` from src/scene.rs; `Point` is an alias. -/
structure Vec3 where
  x : ℚ
  y : ℚ
  z : ℚ
  deriving DecidableEq

/-- `type Point = Vec3`. -/
abbrev Point := Vec3

/-- `impl Sub for Vec3`. -/
instance : Sub Vec3 := ⟨fun a b => ⟨a.x - b.x, a.y - b.y, a.z - b.z⟩⟩

/-- `impl Add for Vec3`. -/
instance : Add Vec3 := ⟨fun a b => ⟨a.x + b.x, a.y + b.y, a.z + b.z⟩⟩

/-- `impl Mul<Vec3> for Vec3` (component-wise). -/
instance : Mul Vec3 := ⟨fun a b => ⟨a.x * b.x, a.y * b.y, a.z * b.z⟩⟩

/-- `impl Mul<f64> for Vec3` (scalar scaling). -/
instance : HMul Vec3 ℚ Vec3 := ⟨fun v q => ⟨v.x * q, v.y * q, v.z * q⟩⟩

/-- Unfolding lemma for `Color` addition. -/
@[simp] theorem Color.add_components (a b : Color) :
    a + b = ⟨a.red + b.red, a.green + b.green, a.blue + b.blue⟩ := rfl

/-- Unfolding lemma for component-wise `Color` multiplication. -/
@[simp] theorem Color.mul_components (a b : Color) :
    a * b = ⟨a.red * b.red, a.green * b.green, a.blue * b.blue⟩ := rfl

/-- Unfolding lemma for `Color`-by-scalar multiplication. -/
@[simp] theorem Color.smul_components (c : Color) (q : ℚ) :
    c * q = (⟨c.red * q, c.green * q, c.blue * q⟩ : Color) := rfl

/-- Unfolding lemma for `Vec3` subtraction. -/
@[simp] theorem Vec3.sub_entries (a b : Vec3) :
    a - b = ⟨a.x - b.x, a.y - b.y, a.z - b.z⟩ := rfl

/-- Unfolding lemma for `Vec3` addition. -/
@[simp] theorem Vec3.add_entries (a b : Vec3) :
    a + b = ⟨a.x + b.x, a.y + b.y, a.z + b.z⟩ := rfl

/-- Unfolding lemma for component-wise `Vec3` multiplication. -/
@[simp] theorem Vec3.mul_entries (a b : Vec3) :
    a * b = ⟨a.x * b.x, a.y * b.y, a.z * b.z⟩ := rfl

/-- Unfolding lemma for `Vec3`-by-scalar multiplication. -/
@[simp] theorem Vec3.smul_entries (v : Vec3) (q : ℚ) :
    v * q = (⟨v.x * q, v.y * q, v.z * q⟩ : Vec3) := rfl

/-- `Vec3::norm`: the squared Euclidean length `x² + y² + z²`. -/
def Vec3.norm (v : Vec3) : ℚ := v.x ^ 2 + v.y ^ 2 + v.z ^ 2

/-- `Vec3::dot`. -/
def Vec3.dot (v rhs : Vec3) : ℚ := v.x * rhs.x + v.y * rhs.y + v.z * rhs.z

/-- `Vec3::cross`. -/
def Vec3.cross (v rhs : Vec3) : Vec3 :=
  ⟨v.y * rhs.z - v.z * rhs.y, v.z * rhs.x - v.x * rhs.z, v.x * rhs.y - v.y * rhs.x⟩

/-- `Vec3::euclidean_distance`: `sqrt(x² + y² + z²)`. -/
def Vec3.euclidean_distance (ops : RealOps) (v : Vec3) : ℚ :=
  ops.sq (v.x ^ 2 + v.y ^ 2 + v.z ^ 2)

/-- `Vec3::normalize`: divide every component by the Euclidean length. -/
def Vec3.normalize (ops : RealOps) (v : Vec3) : Vec3 :=
  let length := ops.sq (v.x ^ 2 + v.y ^ 2 + v.z ^ 2)
  ⟨v.x / length, v.y / length, v.z / length⟩

/-- `struct TextureCoordinates { x, y: f32 }`. -/
structure TextureCoordinates where
  x : ℚ
  y : ℚ

/-- Interface of the decoded texture collaborator (`image::DynamicImage` as
consumed by `Coloration::color`): dimensions plus an RGB accessor. -/
structure Texture where
  width : ℕ
  height : ℕ
  pixel : ℕ → ℕ → ℕ × ℕ × ℕ

/-- An `f32` value: finite rational, infinity, negative infinity or NaN. -/
inductive F32 where
  | fin (q : ℚ)
  | inf
  | ninf
  | nan

/-- Multiplication `val * bound as f32` of an `f32` by a `u32`. -/
def F32.mulNat : F32 → ℕ → F32
  | .fin q, b => .fin (q * b)
  | .inf, b => if b = 0 then .nan else .inf
  | .ninf, b => if b = 0 then .nan else .ninf
  | .nan, _ => .nan

/-- Truncation of a rational toward zero (the rounding used by Rust
float-to-integer `as` casts). -/
def truncRat (q : ℚ) : ℤ := if q < 0 then ⌈q⌉ else ⌊q⌋

/-- Rust `f32 as i32`: truncate toward zero, saturating at the `i32`
bounds; NaN casts to 0. -/
def F32.asI32 : F32 → ℤ
  | .fin q => max (-2 ^ 31) (min (2 ^ 31 - 1) (truncRat q))
  | .inf => 2 ^ 31 - 1
  | .ninf => -2 ^ 31
  | .nan => 0

/-- Rust `u32 as i32` (bit-pattern reinterpretation, argument below `2³²`). -/
def u32_as_i32 (b : ℕ) : ℤ := if (b : ℤ) ≤ 2 ^ 31 - 1 then (b : ℤ) else (b : ℤ) - 2 ^ 32

/-- Rust `i32 as u32` (bit-pattern reinterpretation). -/
def i32_as_u32 (a : ℤ) : ℕ := (a % 2 ^ 32).toNat

/-- Rust `%` on `i32` where it does not panic: the truncated remainder,
sign following the dividend.  Rust's `%` additionally panics — in every
build profile — on a zero divisor and on the overflowing
`i32::MIN % -1`; that error path is modelled by `i32_rem_checked` below,
and `wrap_checked` threads it through `wrap`.  The total function here is
the value of `%` on its non-panicking domain only; theorems stated on it
either restrict to bounds below `2³¹` (positive divisor, no panic
possible) or go through `wrap_checked`. -/
def i32_rem (a b : ℤ) : ℤ :=
  if 0 ≤ a then a % (b.natAbs : ℤ) else -((-a) % (b.natAbs : ℤ))

/-- Rust `%` on `i32` with its panics: `none` on a zero divisor and on
the overflowing `i32::MIN % -1` (both abort in every build profile),
otherwise the truncated remainder. -/
def i32_rem_checked (a b : ℤ) : Option ℤ :=
  if b = 0 ∨ (a = -2 ^ 31 ∧ b = -1) then none else some (i32_rem a b)

/-- Rust `i32` addition with two's-complement wrapping on overflow. -/
def i32_add_wrap (a b : ℤ) : ℤ := (a + b + 2 ^ 31) % 2 ^ 32 - 2 ^ 31

/-- `fn wrap(val: f32, bound: u32) -> u32` from src/scene.rs: scale the
texture coordinate by the bound, cast to `i32`, reduce modulo the bound
(reinterpreted as `i32`) and fold negative remainders back by adding the
bound.  This is the source function's value wherever the source does not
panic; the reachable panic of `%` (at `bound = u32::MAX` with a
sufficiently negative scaled coordinate, `i32::MIN % -1`) is modelled by
`wrap_checked`. -/
def wrap (val : F32) (bound : ℕ) : ℕ :=
  let signed_bound := u32_as_i32 bound
  let float_coord := val.mulNat bound
  let wrapped_coord := i32_rem float_coord.asI32 signed_bound
  if wrapped_coord < 0 then i32_as_u32 (i32_add_wrap wrapped_coord signed_bound)
  else i32_as_u32 wrapped_coord

/-- The source's `wrap` with the `%` panic made explicit: `none` exactly
where the remainder operation aborts the program, otherwise the value of
`wrap`. -/
def wrap_checked (val : F32) (bound : ℕ) : Option ℕ :=
  let signed_bound := u32_as_i32 bound
  let float_coord := val.mulNat bound
  match i32_rem_checked float_coord.asI32 signed_bound with
  | none => none
  | some wrapped_coord =>
      some (if wrapped_coord < 0 then i32_as_u32 (i32_add_wrap wrapped_coord signed_bound)
        else i32_as_u32 wrapped_coord)

/-- Alias used only because a constructor named `Color` shadows the
structure `Color` inside the `Coloration` declaration. -/
abbrev ColorValue := Color

/-- Alias used only because a constructor named `Texture` shadows the
structure `Texture` inside the `Coloration` declaration. -/
abbrev TextureValue := Texture

/-- `enum Coloration { Color(Color), Texture(DynamicImage) }`. -/
inductive Coloration where
  | Color (c : ColorValue)
  | Texture (t : TextureValue)

/-- The texel position sampled by `Coloration::color`:
`(wrap(coords.x, texture.width()), wrap(coords.y, texture.height()))`. -/
def texture_indices (t : Texture) (coords : TextureCoordinates) : ℕ × ℕ :=
  (wrap (F32.fin coords.x) t.width, wrap (F32.fin coords.y) t.height)

/-- `Coloration::color`: a flat coloration returns its color, a texture
coloration samples the texture at the wrapped coordinates and rescales the
8-bit channels to `[0,1]`. -/
def Coloration.color (c : Coloration) (coords : TextureCoordinates) : ColorValue :=
  match c with
  | .Color c => c
  | .Texture t =>
      let output := t.pixel (texture_indices t coords).1 (texture_indices t coords).2
      ⟨(output.1 : ℚ) / 255, (output.2.1 : ℚ) / 255, (output.2.2 : ℚ) / 255⟩

/-- `struct Material { skin: Coloration, albedo: f32 }`. -/
structure Material where
  skin : Coloration
  albedo : ℚ

/-- `struct Sphere { center, radius, material }`. -/
structure Sphere where
  center : Point
  radius : ℚ
  material : Material

/-- `struct Plane { p0, normal, material }`. -/
structure Plane where
  p0 : Point
  normal : Vec3
  material : Material

/-- Alias used only because a constructor named `Sphere` shadows the
structure `Sphere` inside the `Element` declaration. -/
abbrev SphereValue := Sphere

/-- Alias used only because a constructor named `Plane` shadows the
structure `Plane` inside the `Element` declaration. -/
abbrev PlaneValue := Plane

/-- `enum Element { Sphere(Sphere), Plane(Plane) }`. -/
inductive Element where
  | Sphere (s : SphereValue)
  | Plane (p : PlaneValue)

/-- `struct DirectionalLight { direction, color, intensity }`. -/
structure DirectionalLight where
  direction : Vec3
  color : Color
  intensity : ℚ

/-- `struct SphericalLight { point, color, intensity }`. -/
structure SphericalLight where
  point : Point
  color : Color
  intensity : ℚ

/-- `enum Light { Directional(DirectionalLight), Spherical(SphericalLight) }`. -/
inductive Light where
  | Directional (d : DirectionalLight)
  | Spherical (s : SphericalLight)

/-- `Light::color`. -/
def Light.color : Light → Color
  | .Directional d => d.color
  | .Spherical s => s.color

/-- `Light::distance`: a directional light reports the fixed vector
`(1e10, 1e10, 1e10)` ("large distance approx inf"); a spherical light
reports the vector from the hit point to its position. -/
def Light.distance (l : Light) (hit_point : Point) : Vec3 :=
  match l with
  | .Directional _ => ⟨10 ^ 10, 10 ^ 10, 10 ^ 10⟩
  | .Spherical s => s.point - hit_point

/-- `struct Scene` from src/scene.rs. -/
structure Scene where
  width : ℕ
  height : ℕ
  fov : ℚ
  elements : List Element
  lights : List Light
  shadow_bias : ℚ

/-- `struct Intersection { distance: f64, element: &Element }`; the borrow
is modelled by storing the element value. -/
structure Intersection where
  distance : ℚ
  element : Element

/-- `struct Ray { origin: Point, direction: Vec3 }`. -/
structure Ray where
  origin : Point
  direction : Vec3

/-- `tan(fov.to_radians() / 2.0)` from `Ray::create_prime`. -/
def fov_adjustment (ops : RealOps) (scene : Scene) : ℚ :=
  ops.tan (ops.toRad scene.fov / 2)

/-- `sensor_x` from `Ray::create_prime`: pixel center mapped to normalized
device coordinates, scaled by the aspect ratio and the fov adjustment. -/
def sensor_x (ops : RealOps) (x : ℕ) (scene : Scene) : ℚ :=
  ((((x : ℚ) + 1/2) / (scene.width : ℚ)) * 2 - 1) * ((scene.width : ℚ) / (scene.height : ℚ)) *
    fov_adjustment ops scene

/-- `sensor_y` from `Ray::create_prime` (y axis flipped). -/
def sensor_y (ops : RealOps) (y : ℕ) (scene : Scene) : ℚ :=
  (1 - (((y : ℚ) + 1/2) / (scene.height : ℚ)) * 2) * fov_adjustment ops scene

/-- The ray built by `Ray::create_prime` once the assertion has passed. -/
def prime_ray (ops : RealOps) (x y : ℕ) (scene : Scene) : Ray :=
  { origin := ⟨0, 0, 0⟩,
    direction := Vec3.normalize ops ⟨sensor_x ops x scene, sensor_y ops y scene, -1⟩ }

/-- `Ray::create_prime`: `assert!(scene.width > scene.height)` is modelled
by returning `none` (panic) when the assertion fails. -/
def Ray.create_prime (ops : RealOps) (x y : ℕ) (scene : Scene) : Option Ray :=
  if scene.height < scene.width then some (prime_ray ops x y scene) else none

/-- `Sphere::intersect` (geometric method, src/rendering.rs lines 142-160). -/
def Sphere.intersect (ops : RealOps) (s : Sphere) (ray : Ray) : Option ℚ :=
  let l := s.center - ray.origin
  let adj := l.dot ray.direction
  let d2 := l.dot l - adj * adj
  let radius2 := s.radius * s.radius
  if radius2 < d2 then none
  else
    let thc := ops.sq (radius2 - d2)
    let t0 := adj - thc
    let t1 := adj + thc
    if t0 < 0 ∧ t1 < 0 then none
    else some (if t0 < t1 then t0 else t1)

/-- `Plane::intersect` (src/rendering.rs lines 100-111). -/
def Plane.intersect (p : Plane) (ray : Ray) : Option ℚ :=
  let denom := p.normal.dot ray.direction
  if 1 / 1000000 < denom then
    let v := p.p0 - ray.origin
    let distance := v.dot p.normal / denom
    if 0 ≤ distance then some distance else none
  else none

/-- `Sphere::surface_normal`. -/
def Sphere.surface_normal (ops : RealOps) (s : Sphere) (p : Point) : Vec3 :=
  (p - s.center).normalize ops

/-- `Plane::surface_normal` (the stored normal, negated). -/
def Plane.surface_normal (p : Plane) : Vec3 := p.normal * (-1 : ℚ)

/-- `Sphere::texture_coordinates` (spherical UV via `atan2`/`acos`). -/
def Sphere.texture_coordinates (ops : RealOps) (s : Sphere) (hit_point : Point) :
    TextureCoordinates :=
  let hit_vec := hit_point - s.center
  ⟨(1 + ops.atan2 hit_vec.z hit_vec.x / ops.pi) * (1/2),
   ops.acos (hit_vec.y / s.radius) / ops.pi⟩

/-- `Plane::texture_coordinates`: in-plane basis from cross products with a
fallback axis when the first cross product is degenerate. -/
def Plane.texture_coordinates (ops : RealOps) (p : Plane) (hit_point : Point) :
    TextureCoordinates :=
  let first_axis := p.normal.cross ⟨0, 0, 1⟩
  let x_axis := if first_axis.euclidean_distance ops = 0 then p.normal.cross ⟨0, 1, 0⟩
    else first_axis
  let y_axis := p.normal.cross x_axis
  let hit_vec := hit_point - p.p0
  ⟨hit_vec.dot x_axis, hit_vec.dot y_axis⟩

/-- `Element::skin`. -/
def Element.skin : Element → Coloration
  | .Sphere s => s.material.skin
  | .Plane p => p.material.skin

/-- `Element::material`. -/
def Element.material : Element → Material
  | .Sphere s => s.material
  | .Plane p => p.material

/-- `Intersectable::intersect` for `Element`. -/
def Element.intersect (ops : RealOps) (e : Element) (ray : Ray) : Option ℚ :=
  match e with
  | .Sphere s => s.intersect ops ray
  | .Plane p => p.intersect ray

/-- `Intersectable::surface_normal` for `Element`. -/
def Element.surface_normal (ops : RealOps) (e : Element) (p : Point) : Vec3 :=
  match e with
  | .Sphere s => s.surface_normal ops p
  | .Plane pl => pl.surface_normal

/-- `Intersectable::texture_coordinates` for `Element`. -/
def Element.texture_coordinates (ops : RealOps) (e : Element) (hit_point : Point) :
    TextureCoordinates :=
  match e with
  | .Sphere s => s.texture_coordinates ops hit_point
  | .Plane p => p.texture_coordinates ops hit_point

/-- The list of intersections collected by `Scene::trace`'s `filter_map`,
in element order. -/
def hits (ops : RealOps) (scene : Scene) (ray : Ray) : List Intersection :=
  scene.elements.filterMap fun e => (e.intersect ops ray).map fun d => ⟨d, e⟩

/-- `Iterator::min_by` with the strict `partial_cmp` comparison on
distances: a left fold that keeps the incumbent on ties, so the first
minimum in iteration order wins. -/
def min_by_distance : List Intersection → Option Intersection
  | [] => none
  | x :: xs => some (xs.foldl (fun acc i => if i.distance < acc.distance then i else acc) x)

/-- `Scene::trace` (src/rendering.rs lines 52-59). -/
def Scene.trace (ops : RealOps) (scene : Scene) (ray : Ray) : Option Intersection :=
  min_by_distance (hits ops scene ray)

/-- The per-light direction computed first in `get_color`'s loop body:
for a directional light the negated (not re-normalized) light direction,
for a spherical light the normalized vector toward the light's position. -/
def direction_to_light (ops : RealOps) (hit_point : Point) : Light → Vec3
  | .Directional d => d.direction * (-1 : ℚ)
  | .Spherical s => (s.point - hit_point).normalize ops

/-- The shadow ray cast by `get_color`: the origin is the hit point offset
by `shadow_bias` along `direction_to_light`, the direction is
`direction_to_light` itself. -/
def shadow_ray (ops : RealOps) (scene : Scene) (hit_point : Point) (light : Light) : Ray :=
  { origin := hit_point + direction_to_light ops hit_point light * scene.shadow_bias,
    direction := direction_to_light ops hit_point light }

/-- The `in_light` boolean of `get_color`: true when the shadow ray misses
everything or the nearest shadow hit lies farther than the light's
reported distance. -/
def in_light (ops : RealOps) (scene : Scene) (hit_point : Point) (light : Light) : Bool :=
  match scene.trace ops (shadow_ray ops scene hit_point light) with
  | none => true
  | some si => decide ((light.distance hit_point).euclidean_distance ops < si.distance)

/-- The `light_intensity` value of `get_color`'s loop body: a directional
light contributes its intensity gated by `in_light`; a spherical light
contributes inverse-square falloff `intensity / (4π‖L‖²)` with no
occlusion gate. -/
def light_intensity (ops : RealOps) (scene : Scene) (hit_point : Point) : Light → ℚ
  | .Directional l =>
      if in_light ops scene hit_point (.Directional l) then l.intensity else 0
  | .Spherical s =>
      let r2 := (s.point - hit_point).norm
      s.intensity / (4 * ops.pi * r2)

/-- One iteration of `get_color`'s light loop: the color added to the
accumulator for a single light. -/
def light_contribution (ops : RealOps) (scene : Scene) (element : Element)
    (hit_point : Point) (surface_normal : Vec3) (light : Light) : Color :=
  let d2l := direction_to_light ops hit_point light
  let intensity := light_intensity ops scene hit_point light
  let light_power := max (surface_normal.dot d2l) 0 * intensity
  let light_reflected := element.material.albedo / ops.pi
  let light_color := light.color * light_power * light_reflected
  let tc := element.texture_coordinates ops hit_point
  element.skin.color tc * light_color

/-- `get_color` (src/lib.rs lines 30-71): accumulate every light's
contribution at the hit point, starting from black. -/
def get_color (ops : RealOps) (scene : Scene) (ray : Ray) (i : Intersection) : Color :=
  let hit_point := ray.origin + ray.direction * i.distance
  let surface_normal := i.element.surface_normal ops hit_point
  scene.lights.foldl
    (fun color light =>
      color + light_contribution ops scene i.element hit_point surface_normal light)
    ⟨0, 0, 0⟩

/-- Rust `f32 as u8`: truncate toward zero and saturate to `[0, 255]`. -/
def f32_as_u8 (q : ℚ) : ℕ := (max 0 (min 255 (truncRat q))).toNat

/-- The shaded-pixel conversion in `render` (src/lib.rs lines 18-21):
every channel is scaled by 255 and cast with `as u8`; the alpha channel
is written as 0. -/
def color_to_rgba (c : Color) : ℕ × ℕ × ℕ × ℕ :=
  (f32_as_u8 (c.red * 255), f32_as_u8 (c.green * 255), f32_as_u8 (c.blue * 255), 0)

/-- The fixed background `Rgba::from_channels(50, 100, 220, 0)`. -/
def background : ℕ × ℕ × ℕ × ℕ := (50, 100, 220, 0)

/-- The output raster: dimensions plus the pixel store (a total function;
only coordinates inside the dimensions are ever written or read). -/
structure Image where
  width : ℕ
  height : ℕ
  pix : ℕ → ℕ → ℕ × ℕ × ℕ × ℕ

/-- `DynamicImage::new_rgb8`: a zero-initialized raster. -/
def Image.new_rgb8 (w h : ℕ) : Image := ⟨w, h, fun _ _ => (0, 0, 0, 0)⟩

/-- `put_pixel`: point update of the pixel store. -/
def Image.put_pixel (img : Image) (x y : ℕ) (p : ℕ × ℕ × ℕ × ℕ) : Image :=
  { img with pix := fun a b => if a = x ∧ b = y then p else img.pix a b }

/-- The pixel value written by `render` for a traced primary ray: the
shaded color on a hit, the fixed background color on a miss.  (The source
writes the pixel inside both arms of its match; the embedding computes
the value first and performs the single `put_pixel` outside, which writes
the same pixel in either case.) -/
def shade_or_background (ops : RealOps) (scene : Scene) (ray : Ray) : ℕ × ℕ × ℕ × ℕ :=
  match scene.trace ops ray with
  | some i => color_to_rgba (get_color ops scene ray i)
  | none => background

/-- The value `render` writes at pixel `(x, y)` once the primary ray
exists. -/
def pixel_value (ops : RealOps) (scene : Scene) (x y : ℕ) : ℕ × ℕ × ℕ × ℕ :=
  shade_or_background ops scene (prime_ray ops x y scene)

/-- `render` (src/lib.rs lines 8-28): the double pixel loop, writing every
pixel of a fresh raster; a failed `create_prime` assertion aborts the
whole render (`none`). -/
def render (ops : RealOps) (scene : Scene) : Option Image :=
  (List.range scene.width).foldlM
    (fun img x =>
      (List.range scene.height).foldlM
        (fun img y =>
          match Ray.create_prime ops x y scene with
          | none => none
          | some ray => some (img.put_pixel x y (shade_or_background ops scene ray)))
        img)
    (Image.new_rgb8 scene.width scene.height)

/-- Concrete `RealOps` table used for closed evaluations.  `sq` returns
the exact square root at every perfect-square radicand that occurs in the
evaluations below, and a rational approximation of `sqrt(3e20)` (the
directional-light distance `‖(1e10,1e10,1e10)‖`) that agrees with the
IEEE result to the precision relevant for every comparison performed;
`pi` is a rational approximation of `f32` `PI`.  Unused inputs return 0. -/
def stdOps : RealOps where
  sq q :=
    if q = 0 then 0
    else if q = 1 then 1
    else if q = 4 then 2
    else if q = 9 then 3
    else if q = 25 then 5
    else if q = 1/4 then 1/2
    else if q = 25/16 then 5/4
    else if q = 300000000000000000000 then 17320508075688772 / 1000000
    else 0
  tan q := if q = 1/2 then 3/8 else 0
  toRad q := q
  atan2 _ _ := 0
  acos _ := 0
  pi := 31415927 / 10000000

/-- A flat white material with albedo 2, used by the concrete scenes. -/
def whiteMat : Material := ⟨.Color ⟨1, 1, 1⟩, 2⟩

/-- The plane facing the camera in the spherical-light occlusion scene:
`p0 = (0,0,-4)`, normal `(0,0,-1)`. -/
def c1_plane : Plane := ⟨⟨0, 0, -4⟩, ⟨0, 0, -1⟩, whiteMat⟩

/-- The small sphere sitting between the hit point `(0,0,-4)` and the
spherical light at `(0,4,-1)`. -/
def c1_blocker : Sphere := ⟨⟨0, 2, -5/2⟩, 1/2, whiteMat⟩

/-- The spherical light of the occlusion scene. -/
def c1_light : SphericalLight := ⟨⟨0, 4, -1⟩, ⟨1, 1, 1⟩, 100⟩

/-- Scene with one camera-facing plane, one blocking sphere and one
spherical light whose shadow ray hits the blocker well before the light. -/
def c1_scene : Scene :=
  { width := 4, height := 3, fov := 90,
    elements := [.Plane c1_plane, .Sphere c1_blocker],
    lights := [.Spherical c1_light],
    shadow_bias := 0 }

/-- The camera ray of the occlusion scenes: origin, looking down `-z`. -/
def c1_ray : Ray := ⟨⟨0, 0, 0⟩, ⟨0, 0, -1⟩⟩

/-- Table lookup: `stdOps.sq 0 = 0`. -/
@[simp] theorem stdOps_sq_zero : stdOps.sq 0 = 0 := by norm_num [stdOps]

/-- Table lookup: `stdOps.sq 1 = 1`. -/
@[simp] theorem stdOps_sq_one : stdOps.sq 1 = 1 := by norm_num [stdOps]

/-- Table lookup: `stdOps.sq 4 = 2`. -/
@[simp] theorem stdOps_sq_four : stdOps.sq 4 = 2 := by norm_num [stdOps]

/-- Table lookup: `stdOps.sq 25 = 5`. -/
@[simp] theorem stdOps_sq_twentyfive : stdOps.sq 25 = 5 := by norm_num [stdOps]

/-- Table lookup: `stdOps.sq (1/4) = 1/2`. -/
@[simp] theorem stdOps_sq_quarter : stdOps.sq (1/4) = 1/2 := by norm_num [stdOps]

/-- Table lookup: the stand-in for `sqrt(3e20)`. -/
@[simp] theorem stdOps_sq_3e20 :
    stdOps.sq 300000000000000000000 = 17320508075688772 / 1000000 := by norm_num [stdOps]

/-- Table lookup: the rational stand-in for `PI`. -/
@[simp] theorem stdOps_pi_def : stdOps.pi = 31415927 / 10000000 := rfl

/-- In the occlusion scene the direction to the spherical light is the
unit vector `(0, 4/5, 3/5)`. -/
theorem c1_d2l :
    direction_to_light stdOps ⟨0, 0, -4⟩ (.Spherical c1_light) = ⟨0, 4/5, 3/5⟩ := by
  unfold direction_to_light
  norm_num [Vec3.normalize, c1_light]

/-- The shadow ray of the occlusion scene starts at the hit point (zero
bias) and points at the light. -/
theorem c1_sray :
    shadow_ray stdOps c1_scene ⟨0, 0, -4⟩ (.Spherical c1_light) =
      ⟨⟨0, 0, -4⟩, ⟨0, 4/5, 3/5⟩⟩ := by
  norm_num [shadow_ray, c1_d2l, c1_scene]

/-- The camera-facing plane does not intersect the shadow ray (back side). -/
theorem c1_plane_shadow :
    Element.intersect stdOps (.Plane c1_plane) ⟨⟨0, 0, -4⟩, ⟨0, 4/5, 3/5⟩⟩ = none := by
  norm_num [Element.intersect, Plane.intersect, Vec3.dot, c1_plane]

/-- The blocking sphere intersects the shadow ray at distance 2. -/
theorem c1_blocker_shadow :
    Element.intersect stdOps (.Sphere c1_blocker) ⟨⟨0, 0, -4⟩, ⟨0, 4/5, 3/5⟩⟩ = some 2 := by
  norm_num [Element.intersect, Sphere.intersect, Vec3.dot, c1_blocker]

/-- Tracing the shadow ray of the occlusion scene yields the blocker at
distance 2. -/
theorem c1_shadow_trace :
    Scene.trace stdOps c1_scene ⟨⟨0, 0, -4⟩, ⟨0, 4/5, 3/5⟩⟩ =
      some ⟨2, .Sphere c1_blocker⟩ := by
  simp [Scene.trace, hits, c1_scene, c1_plane_shadow, c1_blocker_shadow, min_by_distance]

/-- Projection: the occlusion scene's light sits at `(0,4,-1)`. -/
@[simp] theorem c1_light_point : c1_light.point = ⟨0, 4, -1⟩ := rfl

/-- Projection: the occlusion scene's light intensity is 100. -/
@[simp] theorem c1_light_intensity : c1_light.intensity = 100 := rfl

/-- Projection: the occlusion scene's light color is white. -/
@[simp] theorem c1_light_color : c1_light.color = ⟨1, 1, 1⟩ := rfl

/-- Projection: the plane's presented geometry. -/
@[simp] theorem c1_plane_normal : c1_plane.normal = ⟨0, 0, -1⟩ := rfl

/-- Projection: the plane's material is the flat white albedo-2 material. -/
@[simp] theorem c1_plane_material : c1_plane.material = whiteMat := rfl

/-- Projection: the white material's albedo. -/
@[simp] theorem whiteMat_albedo : whiteMat.albedo = 2 := rfl

/-- Projection: the white material's coloration is flat white. -/
@[simp] theorem whiteMat_skin : whiteMat.skin = .Color ⟨1, 1, 1⟩ := rfl

/-- The code's own `in_light` test classifies the hit point as shadowed
with respect to the spherical light (blocker at 2 < light at 5). -/
theorem c1_in_light :
    in_light stdOps c1_scene ⟨0, 0, -4⟩ (.Spherical c1_light) = false := by
  norm_num [in_light, c1_sray, c1_shadow_trace, Light.distance, Vec3.euclidean_distance]

/-- Despite the occlusion, `get_color` accumulates a strictly positive red
channel from the spherical light. -/
theorem c1_get_color_red :
    (get_color stdOps c1_scene c1_ray ⟨4, .Plane c1_plane⟩).red ≠ 0 := by
  norm_num [get_color, c1_ray, c1_scene, light_contribution, c1_d2l, light_intensity,
    Element.surface_normal, Plane.surface_normal, Element.skin, Element.material,
    Coloration.color, Light.color, Vec3.dot, Vec3.norm]

/-- The camera ray hits the plane of the occlusion scene at distance 4. -/
theorem c1_plane_cam :
    Element.intersect stdOps (.Plane c1_plane) c1_ray = some 4 := by
  norm_num [Element.intersect, Plane.intersect, Vec3.dot, c1_plane, c1_ray]

/-- The camera ray misses the blocking sphere. -/
theorem c1_blocker_cam :
    Element.intersect stdOps (.Sphere c1_blocker) c1_ray = none := by
  norm_num [Element.intersect, Sphere.intersect, Vec3.dot, c1_blocker, c1_ray]

/-- Tracing the camera ray of the occlusion scene yields the plane at 4. -/
theorem c1_cam_trace :
    Scene.trace stdOps c1_scene c1_ray = some ⟨4, .Plane c1_plane⟩ := by
  simp [Scene.trace, hits, c1_scene, c1_plane_cam, c1_blocker_cam, min_by_distance]

/-- Claim C1: the claimed shadow invariant ("a spherical light's
contribution is zero iff a shadow ray toward it hits another primitive
strictly closer than the light") is violated by the code.  In the concrete
scene the camera hits the plane at `(0,0,-4)`, the shadow ray toward the
spherical light at `(0,4,-1)` hits the blocking sphere at distance 2,
strictly less than the distance 5 to the light — the code's own `in_light`
test returns `false` — yet `get_color` accumulates a non-zero red channel,
because the spherical-light intensity is computed without consulting
`in_light`. -/
theorem c1_spherical_occlusion_ignored :
    Scene.trace stdOps c1_scene c1_ray = some ⟨4, .Plane c1_plane⟩ ∧
    Scene.trace stdOps c1_scene
        (shadow_ray stdOps c1_scene ⟨0, 0, -4⟩ (.Spherical c1_light)) =
      some ⟨2, .Sphere c1_blocker⟩ ∧
    Vec3.euclidean_distance stdOps (Light.distance (.Spherical c1_light) ⟨0, 0, -4⟩) = 5 ∧
    in_light stdOps c1_scene ⟨0, 0, -4⟩ (.Spherical c1_light) = false ∧
    (get_color stdOps c1_scene c1_ray ⟨4, .Plane c1_plane⟩).red ≠ 0 := by
  refine ⟨c1_cam_trace, ?_, ?_, c1_in_light, c1_get_color_red⟩
  · rw [c1_sray]; exact c1_shadow_trace
  · norm_num [Light.distance, Vec3.euclidean_distance]

/-- The sphere of the negative-distance scene: centered one unit down the
ray, radius 2, so the ray origin is inside it. -/
def c2_sphere : Sphere := ⟨⟨0, 0, 1⟩, 2, whiteMat⟩

/-- The ray of the negative-distance scene. -/
def c2_ray : Ray := ⟨⟨0, 0, 0⟩, ⟨0, 0, 1⟩⟩

/-- Claim C2: for a ray starting inside the sphere the quadratic has roots
`t0 = -1 < 0` and `t1 = 3 ≥ 0`; the claimed result is the nearer
non-negative root 3, but `Sphere::intersect` returns the smaller root
`-1`, a hit strictly behind the ray origin.  The last two conjuncts verify
that `3` really is a non-negative root (the point at parameter 3 lies on
the sphere). -/
theorem c2_intersect_returns_negative_root :
    Sphere.intersect stdOps c2_sphere c2_ray = some (-1) ∧
    (-1 : ℚ) < 0 ∧
    (0 : ℚ) ≤ 3 ∧
    ((c2_ray.origin + c2_ray.direction * (3 : ℚ)) - c2_sphere.center).norm =
      c2_sphere.radius ^ 2 := by
  refine ⟨?_, by norm_num, by norm_num, ?_⟩
  · norm_num [Sphere.intersect, Vec3.dot, c2_sphere, c2_ray]
  · norm_num [Vec3.norm, c2_sphere, c2_ray]

/-- The camera-facing plane of the directional-light scene. -/
def c7_plane_front : Plane := ⟨⟨0, 0, -2⟩, ⟨0, 0, -1⟩, whiteMat⟩

/-- A plane far behind the camera along the shadow direction, at distance
`2e10` from the hit point — beyond the directional light's finite
"approximately infinite" distance `‖(1e10,1e10,1e10)‖ ≈ 1.732e10`. -/
def c7_plane_far : Plane := ⟨⟨0, 0, 19999999998⟩, ⟨0, 0, 1⟩, whiteMat⟩

/-- The directional light shining along `-z`. -/
def c7_light : DirectionalLight := ⟨⟨0, 0, -1⟩, ⟨1, 1, 1⟩, 1⟩

/-- Scene for the directional-light occlusion-threshold counterexample. -/
def c7_scene : Scene :=
  { width := 4, height := 3, fov := 90,
    elements := [.Plane c7_plane_front, .Plane c7_plane_far],
    lights := [.Directional c7_light],
    shadow_bias := 0 }

/-- Projection: the front plane's normal. -/
@[simp] theorem c7_plane_front_normal : c7_plane_front.normal = ⟨0, 0, -1⟩ := rfl

/-- Projection: the front plane's material. -/
@[simp] theorem c7_plane_front_material : c7_plane_front.material = whiteMat := rfl

/-- Projection: the directional light's data. -/
@[simp] theorem c7_light_direction : c7_light.direction = ⟨0, 0, -1⟩ := rfl

/-- Projection: the directional light's intensity. -/
@[simp] theorem c7_light_intensity : c7_light.intensity = 1 := rfl

/-- Projection: the directional light's color. -/
@[simp] theorem c7_light_color : c7_light.color = ⟨1, 1, 1⟩ := rfl

/-- Direction to the directional light: the negated light direction. -/
theorem c7_d2l :
    direction_to_light stdOps ⟨0, 0, -2⟩ (.Directional c7_light) = ⟨0, 0, 1⟩ := by
  unfold direction_to_light
  norm_num

/-- The shadow ray of the directional-light scene. -/
theorem c7_sray :
    shadow_ray stdOps c7_scene ⟨0, 0, -2⟩ (.Directional c7_light) =
      ⟨⟨0, 0, -2⟩, ⟨0, 0, 1⟩⟩ := by
  norm_num [shadow_ray, c7_d2l, c7_scene]

/-- The front plane does not intersect the shadow ray (back side). -/
theorem c7_front_shadow :
    Element.intersect stdOps (.Plane c7_plane_front) ⟨⟨0, 0, -2⟩, ⟨0, 0, 1⟩⟩ = none := by
  norm_num [Element.intersect, Plane.intersect, Vec3.dot, c7_plane_front]

/-- The far plane intersects the shadow ray at distance `2e10`. -/
theorem c7_far_shadow :
    Element.intersect stdOps (.Plane c7_plane_far) ⟨⟨0, 0, -2⟩, ⟨0, 0, 1⟩⟩ =
      some 20000000000 := by
  norm_num [Element.intersect, Plane.intersect, Vec3.dot, c7_plane_far]

/-- Tracing the shadow ray finds the far plane at `2e10`. -/
theorem c7_shadow_trace :
    Scene.trace stdOps c7_scene ⟨⟨0, 0, -2⟩, ⟨0, 0, 1⟩⟩ =
      some ⟨20000000000, .Plane c7_plane_far⟩ := by
  simp [Scene.trace, hits, c7_scene, c7_front_shadow, c7_far_shadow, min_by_distance]

/-- The shadow hit at `2e10` exceeds the finite light distance, so the
code still classifies the point as lit. -/
theorem c7_in_light :
    in_light stdOps c7_scene ⟨0, 0, -2⟩ (.Directional c7_light) = true := by
  norm_num [in_light, c7_sray, c7_shadow_trace, Light.distance, Vec3.euclidean_distance]

/-- The front plane is hit by the camera ray at distance 2. -/
theorem c7_front_cam :
    Element.intersect stdOps (.Plane c7_plane_front) c1_ray = some 2 := by
  norm_num [Element.intersect, Plane.intersect, Vec3.dot, c7_plane_front, c1_ray]

/-- The far plane is invisible to the camera ray. -/
theorem c7_far_cam :
    Element.intersect stdOps (.Plane c7_plane_far) c1_ray = none := by
  norm_num [Element.intersect, Plane.intersect, Vec3.dot, c7_plane_far, c1_ray]

/-- Tracing the camera ray of the directional scene yields the front
plane at 2. -/
theorem c7_cam_trace :
    Scene.trace stdOps c7_scene c1_ray = some ⟨2, .Plane c7_plane_front⟩ := by
  simp [Scene.trace, hits, c7_scene, c7_front_cam, c7_far_cam, min_by_distance]

/-- Projection: the directional scene's light list. -/
@[simp] theorem c7_scene_lights : c7_scene.lights = [.Directional c7_light] := rfl

/-- The directional light contributes in full despite the shadow hit. -/
theorem c7_get_color_red :
    (get_color stdOps c7_scene c1_ray ⟨2, .Plane c7_plane_front⟩).red ≠ 0 := by
  norm_num [get_color, c1_ray, light_contribution, c7_d2l, light_intensity,
    c7_in_light, Element.surface_normal, Plane.surface_normal, Element.skin,
    Element.material, Coloration.color, Light.color, Vec3.dot]

/-- Claim C7 (counterexample): "any shadow hit, at any distance, blocks a
directional light" is false on the code.  The shadow ray hits the far
plane at distance `2e10`, yet the comparison against the finite light
distance `‖(1e10,1e10,1e10)‖ ≈ 1.732e10` classifies the point as lit and
the light contributes its full intensity (non-zero red channel). -/
theorem c7_far_shadow_hit_does_not_block :
    Scene.trace stdOps c7_scene
        (shadow_ray stdOps c7_scene ⟨0, 0, -2⟩ (.Directional c7_light)) =
      some ⟨20000000000, .Plane c7_plane_far⟩ ∧
    in_light stdOps c7_scene ⟨0, 0, -2⟩ (.Directional c7_light) = true ∧
    (get_color stdOps c7_scene c1_ray ⟨2, .Plane c7_plane_front⟩).red ≠ 0 := by
  refine ⟨?_, c7_in_light, c7_get_color_red⟩
  rw [c7_sray]; exact c7_shadow_trace

/-- Claim C7 (amended): a shadow hit blocks a directional light exactly
when its distance does not exceed the light's finite stand-in distance
`‖(1e10,1e10,1e10)‖`; an occluded directional light contributes zero
intensity (and a zero color contribution), an unoccluded one its fixed
intensity. -/
theorem c7_directional_occlusion_threshold (ops : RealOps) (scene : Scene)
    (element : Element) (hit_point : Point) (surface_normal : Vec3)
    (d : DirectionalLight) :
    (Scene.trace ops scene (shadow_ray ops scene hit_point (.Directional d)) = none →
      light_intensity ops scene hit_point (.Directional d) = d.intensity) ∧
    (∀ si, Scene.trace ops scene (shadow_ray ops scene hit_point (.Directional d)) = some si →
      (Vec3.euclidean_distance ops ⟨10 ^ 10, 10 ^ 10, 10 ^ 10⟩ < si.distance →
        light_intensity ops scene hit_point (.Directional d) = d.intensity) ∧
      (si.distance ≤ Vec3.euclidean_distance ops ⟨10 ^ 10, 10 ^ 10, 10 ^ 10⟩ →
        light_intensity ops scene hit_point (.Directional d) = 0 ∧
        light_contribution ops scene element hit_point surface_normal (.Directional d) =
          ⟨0, 0, 0⟩)) := by
  constructor
  · intro h
    simp [light_intensity, in_light, h]
  · intro si hsi
    constructor
    · intro hlt
      have hIL : in_light ops scene hit_point (.Directional d) = true := by
        simp [in_light, hsi, Light.distance]
        exact hlt
      simp [light_intensity, hIL]
    · intro hle
      have hIL : in_light ops scene hit_point (.Directional d) = false := by
        simp [in_light, hsi, Light.distance]
        exact hle
      have hI0 : light_intensity ops scene hit_point (.Directional d) = 0 := by
        simp [light_intensity, hIL]
      refine ⟨hI0, ?_⟩
      simp [light_contribution, hI0]

/-- Witness for the amended C7 theorem: in the far-plane scene the shadow
hit at `2e10` lies beyond the threshold, so the directional light keeps
its full intensity 1. -/
theorem c7_directional_occlusion_threshold_witness :
    light_intensity stdOps c7_scene ⟨0, 0, -2⟩ (.Directional c7_light) = 1 :=
  ((c7_directional_occlusion_threshold stdOps c7_scene (.Plane c7_plane_front)
      ⟨0, 0, -2⟩ ⟨0, 0, 1⟩ c7_light).2 ⟨20000000000, .Plane c7_plane_far⟩
    (by rw [c7_sray]; exact c7_shadow_trace)).1
    (by norm_num [Vec3.euclidean_distance])

/-- The occlusion scene with a non-zero shadow bias (1), used to exhibit
the direction of the shadow-ray offset. -/
def c3_scene : Scene := { c1_scene with shadow_bias := 1 }

/-- Projection: the biased scene's shadow bias. -/
@[simp] theorem c3_scene_bias : c3_scene.shadow_bias = 1 := rfl

/-- Claim C3 (counterexample): the shadow-ray origin is NOT the hit point
offset along the surface normal — with bias 1 the code produces
`(0, 4/5, -17/5)` (offset along the direction to the light) while the
claimed origin is `(0, 0, -3)` (offset along the plane's normal
`(0,0,1)`); moreover for a directional light with the non-unit direction
`(0,0,-2)` the shadow-ray direction has squared length 4, so it is not a
unit vector. -/
theorem c3_shadow_ray_not_along_normal :
    (shadow_ray stdOps c3_scene ⟨0, 0, -4⟩ (.Spherical c1_light)).origin ≠
      ⟨0, 0, -4⟩ +
        Element.surface_normal stdOps (.Plane c1_plane) ⟨0, 0, -4⟩ * c3_scene.shadow_bias ∧
    ((shadow_ray stdOps c3_scene ⟨0, 0, 0⟩
        (.Directional ⟨⟨0, 0, -2⟩, ⟨1, 1, 1⟩, 1⟩)).direction).norm ≠ 1 := by
  constructor
  · norm_num [shadow_ray, c1_d2l, Element.surface_normal, Plane.surface_normal]
  · norm_num [shadow_ray, direction_to_light, Vec3.norm]

/-- Claim C3 (amended): the shadow ray's origin is the hit point offset by
`shadow_bias` along the direction to the light (not along the surface
normal), and its direction is that same direction-to-light vector: for a
directional light the negated light direction without re-normalization
(unit only if the light's stored direction is unit), for a spherical light
the normalized vector toward the light's position, which has unit squared
length whenever the square-root stand-in is exact and positive at the
radicand. -/
theorem c3_shadow_ray_spec (ops : RealOps) (scene : Scene) (hit_point : Point)
    (light : Light) :
    (shadow_ray ops scene hit_point light).origin =
      hit_point + direction_to_light ops hit_point light * scene.shadow_bias ∧
    (shadow_ray ops scene hit_point light).direction =
      direction_to_light ops hit_point light ∧
    (∀ d, light = .Directional d →
      direction_to_light ops hit_point light = d.direction * (-1 : ℚ)) ∧
    (∀ s, light = .Spherical s →
      direction_to_light ops hit_point light = (s.point - hit_point).normalize ops ∧
      (ops.sq ((s.point - hit_point).norm) ^ 2 = (s.point - hit_point).norm →
        0 < ops.sq ((s.point - hit_point).norm) →
        (direction_to_light ops hit_point light).norm = 1)) := by
  refine ⟨rfl, rfl, ?_, ?_⟩
  · rintro d rfl; rfl
  · rintro s rfl
    refine ⟨rfl, ?_⟩
    intro hsq hpos
    have hne : ops.sq ((s.point - hit_point).norm) ≠ 0 := ne_of_gt hpos
    simp only [direction_to_light, Vec3.normalize, Vec3.norm] at hsq hne ⊢
    have hsum : ∀ a b c L : ℚ, (a/L)^2 + (b/L)^2 + (c/L)^2 = (a^2+b^2+c^2)/L^2 := by
      intro a b c L
      ring
    rw [hsum]
    nth_rewrite 1 [← hsq]
    exact div_self (pow_ne_zero 2 hne)

/-- Witness for the amended C3 theorem: in the occlusion scene the shadow
ray toward the spherical light at `(0,4,-1)` from `(0,0,-4)` has exactly
unit squared length. -/
theorem c3_shadow_ray_spec_witness :
    direction_to_light stdOps ⟨0, 0, -4⟩ (.Spherical c1_light) =
      (c1_light.point - ⟨0, 0, -4⟩).normalize stdOps ∧
    (direction_to_light stdOps ⟨0, 0, -4⟩ (.Spherical c1_light)).norm = 1 := by
  have h := (c3_shadow_ray_spec stdOps c1_scene ⟨0, 0, -4⟩ (.Spherical c1_light)).2.2.2
    c1_light rfl
  refine ⟨h.1, h.2 ?_ ?_⟩
  · norm_num [Vec3.norm]
  · norm_num [Vec3.norm]

/-- The saturating clamp `max 0 (min 255 t)` written as nested
conditionals, for case analysis. -/
theorem clamp_eq (t : ℤ) :
    max 0 (min 255 t) = if t < 0 then 0 else if t ≤ 255 then t else 255 := by
  rcases lt_or_le t 0 with h | h
  · rw [if_pos h, min_eq_right (by omega), max_eq_left (by omega)]
  · rw [if_neg (not_lt.mpr h)]
    rcases lt_or_le (255 : ℤ) t with h2 | h2
    · rw [if_neg (by omega), min_eq_left (by omega), max_eq_right (by norm_num)]
    · rw [if_pos h2, min_eq_right h2, max_eq_right h]

/-- Claim C4 (counterexample): the conversion saturates rather than
wrapping.  The channel value 2.0 scales to 510; the code's `as u8`
produces 255 (saturation), while integer-narrowing wrap-around (`510 mod
256`) would give 254; a negative channel saturates to 0 instead of
wrapping. -/
theorem c4_cast_saturates_not_wraps :
    f32_as_u8 ((2 : ℚ) * 255) = 255 ∧
    (510 : ℤ) % 256 = 254 ∧
    (255 : ℕ) ≠ 254 ∧
    f32_as_u8 ((-1 : ℚ) * 255) = 0 := by
  have h510 : truncRat ((2 : ℚ) * 255) = 510 := by
    rw [truncRat, if_neg (by norm_num)]
    have h : ((510 : ℤ) : ℚ) = (2 : ℚ) * 255 := by norm_num
    rw [← h, Int.floor_intCast]
  have hneg : truncRat ((-1 : ℚ) * 255) = -255 := by
    rw [truncRat, if_pos (by norm_num)]
    have h : ((-255 : ℤ) : ℚ) = (-1 : ℚ) * 255 := by norm_num
    rw [← h, Int.ceil_intCast]
  refine ⟨?_, by norm_num, by norm_num, ?_⟩
  · rw [f32_as_u8, clamp_eq, h510]
    decide
  · rw [f32_as_u8, clamp_eq, hneg]
    decide

/-- Claim C4 (amended): each float channel of a shaded pixel is converted
by multiplying by 255 and truncating toward zero with saturation at the
`u8` bounds (Rust float-to-integer cast semantics): the result never
exceeds 255, in-range values are plain truncation (no rounding), values
above 255 clamp to 255 and negative values clamp to 0. -/
theorem c4_channel_conversion (c : ℚ) (col : Color) :
    color_to_rgba col =
      (f32_as_u8 (col.red * 255), f32_as_u8 (col.green * 255),
       f32_as_u8 (col.blue * 255), 0) ∧
    f32_as_u8 c ≤ 255 ∧
    (0 ≤ c → c < 256 → (f32_as_u8 c : ℤ) = ⌊c⌋) ∧
    (255 < c → f32_as_u8 c = 255) ∧
    (c < 0 → f32_as_u8 c = 0) := by
  refine ⟨rfl, ?_, ?_, ?_, ?_⟩
  · rw [f32_as_u8, clamp_eq]
    split_ifs <;> omega
  · intro h0 h256
    have ht : truncRat c = ⌊c⌋ := if_neg (not_lt.mpr h0)
    have hf0 : 0 ≤ ⌊c⌋ := Int.floor_nonneg.mpr h0
    have hf : ⌊c⌋ < 256 := by
      have h : c < ((256 : ℤ) : ℚ) := by exact_mod_cast h256
      exact Int.floor_lt.mpr h
    rw [f32_as_u8, clamp_eq, ht]
    split_ifs <;> omega
  · intro h
    have h0 : 0 ≤ c := le_trans (by norm_num) h.le
    have ht : truncRat c = ⌊c⌋ := if_neg (not_lt.mpr h0)
    have hf : (255 : ℤ) ≤ ⌊c⌋ := by
      apply Int.le_floor.mpr
      exact_mod_cast h.le
    rw [f32_as_u8, clamp_eq, ht]
    split_ifs <;> omega
  · intro h
    have ht : truncRat c = ⌈c⌉ := if_pos h
    have hc : ⌈c⌉ ≤ 0 := by
      apply Int.ceil_le.mpr
      exact_mod_cast h.le
    rw [f32_as_u8, clamp_eq, ht]
    split_ifs <;> omega

/-- Witness for the amended C4 theorem: the out-of-range channel product
300 saturates to 255, and 100.5 truncates to 100. -/
theorem c4_channel_conversion_witness :
    f32_as_u8 300 = 255 ∧ (f32_as_u8 (201/2) : ℤ) = 100 := by
  constructor
  · exact (c4_channel_conversion 300 ⟨0, 0, 0⟩).2.2.2.1 (by norm_num)
  · have h := (c4_channel_conversion (201/2) ⟨0, 0, 0⟩).2.2.1 (by norm_num) (by norm_num)
    rw [h]
    norm_num

/-- Helper for `Scene::trace`: the fold underlying `min_by` returns an
element of minimal distance, and the first listed element carrying that
distance is the fold's result itself (Rust's `min_by` keeps the earliest
of equally minimal elements, since the comparison replaces the incumbent
only on strictly smaller values). -/
theorem min_by_foldl_spec (xs : List Intersection) : ∀ x : Intersection,
    (∀ j ∈ x :: xs,
      (xs.foldl (fun acc i => if i.distance < acc.distance then i else acc) x).distance ≤
        j.distance) ∧
    (x :: xs).find?
        (fun j => decide
          ((xs.foldl (fun acc i => if i.distance < acc.distance then i else acc) x).distance =
            j.distance)) =
      some (xs.foldl (fun acc i => if i.distance < acc.distance then i else acc) x) := by
  induction xs with
  | nil =>
    intro x
    constructor
    · intro j hj
      simp only [List.foldl_nil]
      simp at hj
      rw [hj]
    · simp [List.find?]
  | cons y ys ih =>
    intro x
    simp only [List.foldl_cons]
    by_cases hxy : y.distance < x.distance
    · simp only [if_pos hxy]
      obtain ⟨ihmin, ihfind⟩ := ih y
      set r := ys.foldl (fun acc i => if i.distance < acc.distance then i else acc) y with hr
      have hrny : r.distance ≤ y.distance := ihmin y (by simp)
      constructor
      · intro j hj
        rcases List.mem_cons.mp hj with hj | hj
        · rw [hj]
          exact le_of_lt (lt_of_le_of_lt hrny hxy)
        · exact ihmin j hj
      · rw [List.find?_cons_of_neg]
        · exact ihfind
        · simp only [decide_eq_true_eq]
          exact ne_of_lt (lt_of_le_of_lt hrny hxy)
    · simp only [if_neg hxy]
      have hxyle : x.distance ≤ y.distance := not_lt.mp hxy
      obtain ⟨ihmin, ihfind⟩ := ih x
      set r := ys.foldl (fun acc i => if i.distance < acc.distance then i else acc) x with hr
      have hrx : r.distance ≤ x.distance := ihmin x (by simp)
      constructor
      · intro j hj
        rcases List.mem_cons.mp hj with hj | hj
        · rw [hj]
          exact hrx
        rcases List.mem_cons.mp hj with hj | hj
        · rw [hj]
          exact le_trans hrx hxyle
        · exact ihmin j (by simp [hj])
      · by_cases hdx : r.distance = x.distance
        · have hfx : (x :: ys).find? (fun j => decide (r.distance = j.distance)) = some x :=
            List.find?_cons_of_pos _ (by simp [hdx])
          have hxr : x = r := by
            rw [hfx] at ihfind
            exact Option.some.inj ihfind
          rw [List.find?_cons_of_pos _ (by simp [hdx]), hxr]
        · have hdy : r.distance ≠ y.distance := fun he =>
            hdx (le_antisymm hrx (he.symm ▸ hxyle))
          rw [List.find?_cons_of_neg _ (by simp [hdx]),
            List.find?_cons_of_neg _ (by simp [hdy])]
          rw [List.find?_cons_of_neg _ (by simp [hdx])] at ihfind
          exact ihfind

/-- Claim C5: `Scene::trace` returns `none` exactly when no primitive
reports a hit, and otherwise returns an intersection of minimal distance;
ties are broken in favor of the first primitive in element order — the
returned intersection is the first entry of the hit list carrying the
minimal distance. -/
theorem c5_trace_nearest_hit (ops : RealOps) (scene : Scene) (ray : Ray) :
    (Scene.trace ops scene ray = none ↔ hits ops scene ray = []) ∧
    (∀ i, Scene.trace ops scene ray = some i →
      (∀ j ∈ hits ops scene ray, i.distance ≤ j.distance) ∧
      (hits ops scene ray).find? (fun j => decide (i.distance = j.distance)) = some i) := by
  unfold Scene.trace
  rcases hh : hits ops scene ray with _ | ⟨x, xs⟩
  · simp [min_by_distance]
  · simp only [min_by_distance]
    constructor
    · simp
    · intro i hi
      have hi2 : i = xs.foldl (fun acc j => if j.distance < acc.distance then j else acc) x :=
        (Option.some.inj hi).symm
      subst hi2
      exact min_by_foldl_spec xs x

/-- Sphere hit by the nearest-hit witness ray at distance 4. -/
def c5_sphere_far : Sphere := ⟨⟨0, 0, -5⟩, 1, whiteMat⟩

/-- Sphere hit by the nearest-hit witness ray at distance 2, listed second. -/
def c5_sphere_near : Sphere := ⟨⟨0, 0, -3⟩, 1, whiteMat⟩

/-- Witness scene for nearest-hit selection (two spheres on the axis). -/
def c5_scene : Scene :=
  { width := 4, height := 3, fov := 90,
    elements := [.Sphere c5_sphere_far, .Sphere c5_sphere_near],
    lights := [],
    shadow_bias := 0 }

/-- The far sphere is hit at distance 4. -/
theorem c5_far_cam :
    Element.intersect stdOps (.Sphere c5_sphere_far) c1_ray = some 4 := by
  norm_num [Element.intersect, Sphere.intersect, Vec3.dot, c5_sphere_far, c1_ray]

/-- The near sphere is hit at distance 2. -/
theorem c5_near_cam :
    Element.intersect stdOps (.Sphere c5_sphere_near) c1_ray = some 2 := by
  norm_num [Element.intersect, Sphere.intersect, Vec3.dot, c5_sphere_near, c1_ray]

/-- The hit list of the witness scene, in element order. -/
theorem c5_hits :
    hits stdOps c5_scene c1_ray =
      [⟨4, .Sphere c5_sphere_far⟩, ⟨2, .Sphere c5_sphere_near⟩] := by
  simp [hits, c5_scene, c5_far_cam, c5_near_cam]

/-- Tracing the witness scene returns the near sphere. -/
theorem c5_trace :
    Scene.trace stdOps c5_scene c1_ray = some ⟨2, .Sphere c5_sphere_near⟩ := by
  rw [Scene.trace, c5_hits]
  norm_num [min_by_distance]

/-- Witness for the C5 theorem: applied to the two-sphere scene, the
minimality and first-of-minimal-distance conclusions hold at the traced
intersection of distance 2. -/
theorem c5_trace_nearest_hit_witness :
    (hits stdOps c5_scene c1_ray).find?
        (fun j => decide ((⟨2, .Sphere c5_sphere_near⟩ : Intersection).distance = j.distance)) =
      some ⟨2, .Sphere c5_sphere_near⟩ :=
  ((c5_trace_nearest_hit stdOps c5_scene c1_ray).2 ⟨2, .Sphere c5_sphere_near⟩ c5_trace).2

/-- Truncation toward zero is the identity on integer rationals. -/
theorem truncRat_intCast (n : ℤ) : truncRat (n : ℚ) = n := by
  unfold truncRat
  by_cases h : ((n : ℚ)) < 0
  · rw [if_pos h, Int.ceil_intCast]
  · rw [if_neg h, Int.floor_intCast]

/-- Truncation toward zero on a natural-number rational. -/
theorem truncRat_natCast (n : ℕ) : truncRat ((n : ℕ) : ℚ) = (n : ℤ) := by
  have h : ((n : ℚ)) = (((n : ℤ)) : ℚ) := by push_cast; ring
  rw [h, truncRat_intCast]

/-- Every `f32 as i32` cast result lies in the `i32` range. -/
theorem F32.asI32_range (f : F32) : -2 ^ 31 ≤ f.asI32 ∧ f.asI32 ≤ 2 ^ 31 - 1 := by
  cases f with
  | fin q =>
    refine ⟨le_max_left _ _, ?_⟩
    simp only [F32.asI32]
    exact max_le (by norm_num) (min_le_left _ _)
  | inf => constructor <;> norm_num [F32.asI32]
  | ninf => constructor <;> norm_num [F32.asI32]
  | nan => constructor <;> norm_num [F32.asI32]

/-- Bounds and sign of the truncated `i32` remainder. -/
theorem i32_rem_bounds (a b : ℤ) (hb : b.natAbs ≠ 0) :
    -(b.natAbs : ℤ) < i32_rem a b ∧ i32_rem a b < (b.natAbs : ℤ) ∧
    (0 ≤ a → 0 ≤ i32_rem a b) ∧ (¬ 0 ≤ a → i32_rem a b ≤ 0) := by
  have hne : ((b.natAbs : ℤ)) ≠ 0 := by omega
  have hpos : (0 : ℤ) < (b.natAbs : ℤ) := by omega
  unfold i32_rem
  by_cases ha : 0 ≤ a
  · rw [if_pos ha]
    have h1 := Int.emod_nonneg a hne
    have h2 := Int.emod_lt_of_pos a hpos
    exact ⟨by omega, h2, fun _ => h1, fun h => absurd ha h⟩
  · rw [if_neg ha]
    have h1 := Int.emod_nonneg (-a) hne
    have h2 := Int.emod_lt_of_pos (-a) hpos
    exact ⟨by omega, by omega, fun h => absurd h ha, fun _ => by omega⟩

/-- Range invariant of `wrap`: for every `f32` input (finite or not) and
every positive `u32` bound the result lies strictly below the bound. -/
theorem wrap_lt (v : F32) (bound : ℕ) (h1 : 1 ≤ bound) (h2 : bound < 2 ^ 32) :
    wrap v bound < bound := by
  unfold wrap
  obtain ⟨htl, htu⟩ := F32.asI32_range (F32.mulNat v bound)
  have hsbv : (u32_as_i32 bound = (bound : ℤ) ∧ (bound : ℤ) ≤ 2 ^ 31 - 1) ∨
      (u32_as_i32 bound = (bound : ℤ) - 2 ^ 32 ∧ 2 ^ 31 - 1 < (bound : ℤ)) := by
    unfold u32_as_i32
    by_cases hc : (bound : ℤ) ≤ 2 ^ 31 - 1
    · exact Or.inl ⟨if_pos hc, hc⟩
    · exact Or.inr ⟨if_neg hc, by omega⟩
  have hsbne : (u32_as_i32 bound).natAbs ≠ 0 := by
    rcases hsbv with ⟨he, _⟩ | ⟨he, _⟩ <;> omega
  obtain ⟨hr1, hr2, hr3, hr4⟩ :=
    i32_rem_bounds (F32.mulNat v bound).asI32 (u32_as_i32 bound) hsbne
  rcases hsbv with ⟨he, hb31⟩ | ⟨he, hb31⟩
  · rw [he] at hr1 hr2 hr3 hr4 ⊢
    by_cases hneg : i32_rem (F32.mulNat v bound).asI32 (bound : ℤ) < 0
    · rw [if_pos hneg]
      unfold i32_as_u32 i32_add_wrap
      omega
    · rw [if_neg hneg]
      unfold i32_as_u32
      omega
  · rw [he] at hr1 hr2 hr3 hr4 ⊢
    by_cases hneg : i32_rem (F32.mulNat v bound).asI32 ((bound : ℤ) - 2 ^ 32) < 0
    · rw [if_pos hneg]
      unfold i32_as_u32 i32_add_wrap
      omega
    · rw [if_neg hneg]
      unfold i32_as_u32
      omega

/-- `wrap` maps NaN to texel 0: the cast yields 0 and `0 % bound = 0`. -/
theorem wrap_nan (bound : ℕ) : wrap .nan bound = 0 := by
  unfold wrap F32.mulNat F32.asI32 i32_rem i32_as_u32
  norm_num

/-- A concrete 2-by-3 texture used by the C10 witness. -/
def c10_tex : Texture := ⟨2, 3, fun _ _ => (0, 0, 0)⟩

/-- Claim C6 (counterexample): `wrap` is not idempotent, because it
scales its input by the bound before reducing: `wrap(0.5, 4) = 2` (texel
2 of 4) but `wrap(2, 4) = 0` since `2 * 4 = 8 ≡ 0 (mod 4)`. -/
theorem c6_wrap_not_idempotent :
    wrap (F32.fin (1/2)) 4 = 2 ∧
    wrap (F32.fin ((wrap (F32.fin (1/2)) 4 : ℕ) : ℚ)) 4 = 0 ∧
    (2 : ℕ) ≠ 0 := by
  have e1 : wrap (F32.fin (1/2)) 4 = 2 := by
    simp only [wrap, F32.mulNat, F32.asI32]
    rw [show (1/2 : ℚ) * ((4 : ℕ) : ℚ) = ((2 : ℤ) : ℚ) by norm_num, truncRat_intCast]
    decide
  refine ⟨e1, ?_, by norm_num⟩
  rw [e1]
  simp only [wrap, F32.mulNat, F32.asI32]
  rw [show (((2 : ℕ) : ℚ)) * ((4 : ℕ) : ℚ) = ((8 : ℤ) : ℚ) by norm_num, truncRat_intCast]
  decide

/-- Claim C6 (amended): for every finite input and positive bound below
`2³¹`, `wrap` lands in `[0, bound)` and folds negative intermediate
remainders back by adding the bound; idempotence holds only in rescaled
form — feeding the texel index back as a texture coordinate divided by
the bound reproduces it — because `wrap` multiplies its input by the
bound before reducing. -/
theorem c6_wrap_spec (v : ℚ) (bound : ℕ) (h1 : 1 ≤ bound) (h2 : (bound : ℤ) < 2 ^ 31) :
    wrap (F32.fin v) bound < bound ∧
    (i32_rem (F32.asI32 (F32.mulNat (F32.fin v) bound)) (u32_as_i32 bound) < 0 →
      (wrap (F32.fin v) bound : ℤ) =
        i32_rem (F32.asI32 (F32.mulNat (F32.fin v) bound)) (u32_as_i32 bound) + bound) ∧
    wrap (F32.fin ((wrap (F32.fin v) bound : ℕ) / (bound : ℚ))) bound =
      wrap (F32.fin v) bound := by
  have hb32 : bound < 2 ^ 32 := by omega
  have hsb : u32_as_i32 bound = (bound : ℤ) := by
    unfold u32_as_i32
    rw [if_pos (show (bound : ℤ) ≤ 2 ^ 31 - 1 by omega)]
  refine ⟨wrap_lt _ _ h1 hb32, ?_, ?_⟩
  · intro hneg
    have hsbne : (u32_as_i32 bound).natAbs ≠ 0 := by
      rw [hsb]
      omega
    obtain ⟨hr1, hr2, hr3, hr4⟩ :=
      i32_rem_bounds (F32.asI32 (F32.mulNat (F32.fin v) bound)) (u32_as_i32 bound) hsbne
    rw [hsb] at hr1 hr2 hneg ⊢
    unfold wrap
    rw [hsb, if_pos hneg]
    unfold i32_as_u32 i32_add_wrap
    omega
  · set r := wrap (F32.fin v) bound with hrdef
    have hrlt : r < bound := wrap_lt _ _ h1 hb32
    unfold wrap
    simp only [F32.mulNat]
    rw [div_mul_cancel₀ _ (show ((bound : ℕ) : ℚ) ≠ 0 by
      exact_mod_cast show bound ≠ 0 by omega)]
    simp only [F32.asI32]
    rw [truncRat_natCast]
    rw [min_eq_right (show ((r : ℕ) : ℤ) ≤ 2 ^ 31 - 1 by omega),
      max_eq_right (show (-2 ^ 31 : ℤ) ≤ ((r : ℕ) : ℤ) by omega)]
    rw [hsb]
    unfold i32_rem
    rw [if_pos (show (0 : ℤ) ≤ ((r : ℕ) : ℤ) by omega)]
    rw [Int.natAbs_ofNat]
    rw [Int.emod_eq_of_lt (by omega) (by omega)]
    rw [if_neg (show ¬ (((r : ℕ) : ℤ) < 0) by omega)]
    unfold i32_as_u32
    omega

/-- An `Option`-monadic fold whose body always succeeds is the pure fold. -/
theorem foldlM_some (g : Image → ℕ → Image) (l : List ℕ) (img : Image) :
    (l.foldlM (m := Option) (fun im y => some (g im y)) img) = some (l.foldl g img) := by
  induction l generalizing img with
  | nil => rfl
  | cons a l ih => simp [List.foldlM_cons, ih]

/-- `put_pixel` leaves the dimensions unchanged. -/
theorem put_pixel_width (img : Image) (x y : ℕ) (p : ℕ × ℕ × ℕ × ℕ) :
    (img.put_pixel x y p).width = img.width ∧ (img.put_pixel x y p).height = img.height :=
  ⟨rfl, rfl⟩

/-- A fold of `put_pixel` writes leaves the dimensions unchanged. -/
theorem foldl_put_pixel_dims (x : ℕ) (f : ℕ → ℕ × ℕ × ℕ × ℕ) (l : List ℕ) (img : Image) :
    (l.foldl (fun im y => im.put_pixel x y (f y)) img).width = img.width ∧
    (l.foldl (fun im y => im.put_pixel x y (f y)) img).height = img.height := by
  induction l generalizing img with
  | nil => exact ⟨rfl, rfl⟩
  | cons c cs ih => simpa [List.foldl_cons] using ih (img.put_pixel x c (f c))

/-- Pixel content of a column fold: position `(a, b)` holds the written
value when `a` is the column and `b` was visited, and is untouched
otherwise. -/
theorem foldl_put_pixel_pix (x : ℕ) (f : ℕ → ℕ × ℕ × ℕ × ℕ) (l : List ℕ) (img : Image)
    (a b : ℕ) :
    (l.foldl (fun im y => im.put_pixel x y (f y)) img).pix a b =
      if a = x ∧ b ∈ l then f b else img.pix a b := by
  induction l generalizing img with
  | nil => simp
  | cons c cs ih =>
    simp only [List.foldl_cons]
    rw [ih]
    by_cases hmem : a = x ∧ b ∈ cs
    · rw [if_pos hmem, if_pos ⟨hmem.1, List.mem_cons_of_mem c hmem.2⟩]
    · rw [if_neg hmem]
      show (if a = x ∧ b = c then f c else img.pix a b) =
        if a = x ∧ b ∈ c :: cs then f b else img.pix a b
      by_cases hax : a = x
      · by_cases hbc : b = c
        · subst hax
          subst hbc
          rw [if_pos ⟨rfl, rfl⟩, if_pos ⟨rfl, List.mem_cons_self _ _⟩]
        · rw [if_neg (fun hc => hbc hc.2),
            if_neg (fun hc => (List.mem_cons.mp hc.2).elim hbc (fun h => hmem ⟨hc.1, h⟩))]
      · rw [if_neg (fun hc => hax hc.1), if_neg (fun hc => hax hc.1)]

/-- Dimensions of the full double fold. -/
theorem foldl_rows_dims (ops : RealOps) (scene : Scene) (xs : List ℕ) (img : Image) :
    ((xs.foldl (fun im x =>
        (List.range scene.height).foldl
          (fun im2 y => im2.put_pixel x y (pixel_value ops scene x y)) im) img).width =
      img.width) ∧
    ((xs.foldl (fun im x =>
        (List.range scene.height).foldl
          (fun im2 y => im2.put_pixel x y (pixel_value ops scene x y)) im) img).height =
      img.height) := by
  induction xs generalizing img with
  | nil => exact ⟨rfl, rfl⟩
  | cons c cs ih =>
    simp only [List.foldl_cons]
    obtain ⟨ihw, ihh⟩ := ih ((List.range scene.height).foldl
      (fun im2 y => im2.put_pixel c y (pixel_value ops scene c y)) img)
    obtain ⟨hw, hh⟩ := foldl_put_pixel_dims c (fun y => pixel_value ops scene c y)
      (List.range scene.height) img
    exact ⟨ihw.trans hw, ihh.trans hh⟩

/-- Pixel content of the full double fold. -/
theorem foldl_rows_pix (ops : RealOps) (scene : Scene) (xs : List ℕ) (img : Image)
    (a b : ℕ) :
    (xs.foldl (fun im x =>
        (List.range scene.height).foldl
          (fun im2 y => im2.put_pixel x y (pixel_value ops scene x y)) im) img).pix a b =
      if a ∈ xs ∧ b < scene.height then pixel_value ops scene a b else img.pix a b := by
  induction xs generalizing img with
  | nil => simp
  | cons c cs ih =>
    simp only [List.foldl_cons]
    rw [ih]
    by_cases hmem : a ∈ cs ∧ b < scene.height
    · rw [if_pos hmem, if_pos ⟨List.mem_cons_of_mem c hmem.1, hmem.2⟩]
    · rw [if_neg hmem, foldl_put_pixel_pix]
      by_cases hac : a = c ∧ b < scene.height
      · rw [if_pos (by simpa [List.mem_range] using hac),
          if_pos ⟨by simp [hac.1], hac.2⟩, hac.1]
      · have h1 : ¬ (a = c ∧ b ∈ List.range scene.height) := by
          rw [List.mem_range]
          exact hac
        have h2 : ¬ (a ∈ c :: cs ∧ b < scene.height) := by
          intro hc
          rcases List.mem_cons.mp hc.1 with h | h
          · exact hac ⟨h, hc.2⟩
          · exact hmem ⟨h, hc.2⟩
        rw [if_neg h1, if_neg h2]

/-- Under the documented precondition the render succeeds and equals the
pure double fold of single-pixel writes. -/
theorem render_eq_foldl (ops : RealOps) (scene : Scene) (h : scene.height < scene.width) :
    render ops scene = some ((List.range scene.width).foldl
      (fun im x =>
        (List.range scene.height).foldl
          (fun im2 y => im2.put_pixel x y (pixel_value ops scene x y)) im)
      (Image.new_rgb8 scene.width scene.height)) := by
  unfold render
  have hcp : ∀ a b : ℕ, Ray.create_prime ops a b scene = some (prime_ray ops a b scene) := by
    intro a b
    unfold Ray.create_prime
    rw [if_pos h]
  simp only [hcp]
  have hpv : ∀ a b : ℕ, shade_or_background ops scene (prime_ray ops a b scene) =
      pixel_value ops scene a b := fun _ _ => rfl
  simp only [hpv]
  simp only [foldlM_some]

/-- Claim C9: `render` is a pure function of the scene (so two evaluations
agree definitionally), and whenever it produces a raster, that raster has
dimensions exactly `width × height` and every pixel inside them holds the
value determined by its primary ray: the shaded color on a hit, the fixed
background color on a miss. -/
theorem c9_render_full_raster (ops : RealOps) (scene : Scene) (img : Image)
    (h : render ops scene = some img) :
    render ops scene = render ops scene ∧
    img.width = scene.width ∧ img.height = scene.height ∧
    ∀ x, x < scene.width → ∀ y, y < scene.height →
      img.pix x y = pixel_value ops scene x y := by
  refine ⟨rfl, ?_⟩
  by_cases hwh : scene.height < scene.width
  · rw [render_eq_foldl ops scene hwh] at h
    have himg := (Option.some.inj h).symm
    subst himg
    obtain ⟨hw, hh⟩ := foldl_rows_dims ops scene (List.range scene.width)
      (Image.new_rgb8 scene.width scene.height)
    refine ⟨hw, hh, ?_⟩
    intro x hx y hy
    rw [foldl_rows_pix, if_pos ⟨List.mem_range.mpr hx, hy⟩]
  · rcases Nat.eq_zero_or_pos scene.width with hw0 | hwpos
    · have hren : render ops scene = some (Image.new_rgb8 scene.width scene.height) := by
        unfold render
        rw [hw0, List.range_zero]
        rfl
      rw [hren] at h
      have himg := (Option.some.inj h).symm
      subst himg
      exact ⟨rfl, rfl, fun x hx => absurd hx (by omega)⟩
    · exfalso
      have hcp : Ray.create_prime ops 0 0 scene = none := by
        unfold Ray.create_prime
        rw [if_neg hwh]
      have hhpos : 0 < scene.height := lt_of_lt_of_le hwpos (not_lt.mp hwh)
      obtain ⟨m, hm⟩ : ∃ m, scene.width = m + 1 := ⟨scene.width - 1, by omega⟩
      obtain ⟨k, hk⟩ : ∃ k, scene.height = k + 1 := ⟨scene.height - 1, by omega⟩
      have hren : render ops scene = none := by
        unfold render
        rw [hm, hk, List.range_succ_eq_map, List.range_succ_eq_map]
        simp [List.foldlM_cons, hcp]
      rw [hren] at h
      cases h

/-- The witness scene for C9: 2 by 1 pixels, no primitives, no lights. -/
def c9_scene : Scene :=
  { width := 2, height := 1, fov := 5, elements := [], lights := [], shadow_bias := 0 }

/-- The raster the witness render produces: both pixels written with the
background color. -/
def c9_img : Image :=
  ((Image.new_rgb8 2 1).put_pixel 0 0 background).put_pixel 1 0 background

/-- Witness for C9: the 2-by-1 empty-scene render succeeds, its raster
has the scene's dimensions and pixel `(1,0)` holds the value of its
primary ray (the background, as nothing is hit). -/
theorem c9_render_full_raster_witness :
    c9_img.width = c9_scene.width ∧ c9_img.height = c9_scene.height ∧
    c9_img.pix 1 0 = pixel_value stdOps c9_scene 1 0 := by
  have h := c9_render_full_raster stdOps c9_scene c9_img (by rfl)
  exact ⟨h.2.1, h.2.2.1, h.2.2.2 1 (by norm_num [c9_scene]) 0 (by norm_num [c9_scene])⟩

/-- Witness for the amended C6 theorem: at input `-1/2`, bound 4, the
intermediate remainder is negative and gets folded back by adding the
bound, and the result stays in range. -/
theorem c6_wrap_spec_witness :
    wrap (F32.fin (-1/2)) 4 < 4 ∧
    (wrap (F32.fin (-1/2)) 4 : ℤ) =
      i32_rem (F32.asI32 (F32.mulNat (F32.fin (-1/2)) 4)) (u32_as_i32 4) + 4 := by
  have h := c6_wrap_spec (-1/2) 4 (by norm_num) (by norm_num)
  refine ⟨h.1, h.2.1 ?_⟩
  simp only [F32.mulNat, F32.asI32]
  rw [show (-1/2 : ℚ) * ((4 : ℕ) : ℚ) = ((-2 : ℤ) : ℚ) by norm_num, truncRat_intCast]
  decide

/-- Claim C8: `Ray::create_prime` has the precondition `width > height`
enforced by `assert!` — modelled as `none` (panic) when violated — and
for pixels inside the raster with the precondition holding it returns the
ray with origin at the world origin and the normalized direction built
from the pixel's normalized device coordinates, the aspect ratio and
`tan(fov_radians/2)`, with `z = -1` before normalization; the direction
has unit squared length whenever the square-root stand-in is exact and
positive at the direction's radicand. -/
theorem c8_create_prime_spec (ops : RealOps) (x y : ℕ) (scene : Scene)
    (hx : x < scene.width) (hy : y < scene.height)
    (hsq : ops.sq (sensor_x ops x scene ^ 2 + sensor_y ops y scene ^ 2 + (-1 : ℚ) ^ 2) ^ 2 =
      sensor_x ops x scene ^ 2 + sensor_y ops y scene ^ 2 + (-1 : ℚ) ^ 2)
    (hpos : 0 < ops.sq (sensor_x ops x scene ^ 2 + sensor_y ops y scene ^ 2 + (-1 : ℚ) ^ 2)) :
    (scene.width ≤ scene.height → Ray.create_prime ops x y scene = none) ∧
    (scene.height < scene.width →
      Ray.create_prime ops x y scene =
        some { origin := ⟨0, 0, 0⟩,
               direction :=
                 Vec3.normalize ops ⟨sensor_x ops x scene, sensor_y ops y scene, -1⟩ } ∧
      (Vec3.normalize ops ⟨sensor_x ops x scene, sensor_y ops y scene, -1⟩).norm = 1) := by
  constructor
  · intro h
    unfold Ray.create_prime
    rw [if_neg (by omega)]
  · intro h
    constructor
    · unfold Ray.create_prime prime_ray
      rw [if_pos h]
    · have hne : ops.sq (sensor_x ops x scene ^ 2 + sensor_y ops y scene ^ 2 +
          (-1 : ℚ) ^ 2) ≠ 0 := ne_of_gt hpos
      simp only [Vec3.normalize, Vec3.norm]
      have hsum : ∀ a b c L : ℚ, (a/L)^2 + (b/L)^2 + (c/L)^2 = (a^2+b^2+c^2)/L^2 := by
        intro a b c L
        ring
      rw [hsum]
      nth_rewrite 1 [← hsq]
      exact div_self (pow_ne_zero 2 hne)

/-- Oracle record used by the C8 witness: `tan` produces the value 3/8 so
that the pre-normalization direction is `(3/4, 0, -1)`, whose squared
length 25/16 has the exact square root 5/4. -/
def wops : RealOps where
  sq q := if q = 25/16 then 5/4 else 0
  tan _ := 3/8
  toRad q := q
  atan2 _ _ := 0
  acos _ := 0
  pi := 0

/-- The 3-by-1 witness scene for `create_prime`. -/
def c8_scene : Scene :=
  { width := 3, height := 1, fov := 7, elements := [], lights := [], shadow_bias := 0 }

/-- Witness for C8 at pixel `(2,0)` of the 3-by-1 scene: the assertion
passes, the ray starts at the origin with the normalized sensor
direction, and that direction is exactly unit length. -/
theorem c8_create_prime_spec_witness :
    Ray.create_prime wops 2 0 c8_scene =
      some { origin := ⟨0, 0, 0⟩,
             direction :=
               Vec3.normalize wops
                 ⟨sensor_x wops 2 c8_scene, sensor_y wops 0 c8_scene, -1⟩ } ∧
    (Vec3.normalize wops
        ⟨sensor_x wops 2 c8_scene, sensor_y wops 0 c8_scene, -1⟩).norm = 1 :=
  (c8_create_prime_spec wops 2 0 c8_scene (by norm_num [c8_scene]) (by norm_num [c8_scene])
    (by norm_num [sensor_x, sensor_y, fov_adjustment, wops, c8_scene])
    (by norm_num [sensor_x, sensor_y, fov_adjustment, wops, c8_scene])).2
    (by norm_num [c8_scene])

/-- The `i32` reinterpretation of a positive `u32` bound is never zero,
so the only reachable `%` panic inside `wrap` is the `i32::MIN % -1`
overflow. -/
theorem u32_as_i32_ne_zero (b : ℕ) (h1 : 1 ≤ b) (h2 : b < 2 ^ 32) : u32_as_i32 b ≠ 0 := by
  unfold u32_as_i32
  split <;> omega

/-- Where the source's `%` does not panic, `wrap_checked` returns the
value of the total model `wrap`. -/
theorem wrap_checked_eq_wrap (v : F32) (b : ℕ)
    (h : ¬ (u32_as_i32 b = 0 ∨ ((F32.mulNat v b).asI32 = -2 ^ 31 ∧ u32_as_i32 b = -1))) :
    wrap_checked v b = some (wrap v b) := by
  simp only [wrap_checked, i32_rem_checked, wrap]
  rw [if_neg h]

/-- Inversion: a value returned by `wrap_checked` is the value of `wrap`. -/
theorem wrap_checked_some (v : F32) (b : ℕ) (r : ℕ)
    (h : wrap_checked v b = some r) : wrap v b = r := by
  by_cases hp : (u32_as_i32 b = 0 ∨ ((F32.mulNat v b).asI32 = -2 ^ 31 ∧ u32_as_i32 b = -1))
  · exfalso
    simp only [wrap_checked, i32_rem_checked] at h
    rw [if_pos hp] at h
    cases h
  · rw [wrap_checked_eq_wrap v b hp] at h
    exact Option.some.inj h

/-- For a positive `u32` bound, `wrap` panics exactly when the bound
reinterprets to `-1` (that is, `bound = u32::MAX`) and the scaled,
saturated coordinate casts to `i32::MIN`. -/
theorem wrap_checked_none_iff (v : F32) (b : ℕ) (h1 : 1 ≤ b) (h2 : b < 2 ^ 32) :
    wrap_checked v b = none ↔
      (u32_as_i32 b = -1 ∧ (F32.mulNat v b).asI32 = -2 ^ 31) := by
  have h0 := u32_as_i32_ne_zero b h1 h2
  by_cases hp : (u32_as_i32 b = 0 ∨ ((F32.mulNat v b).asI32 = -2 ^ 31 ∧ u32_as_i32 b = -1))
  · simp only [wrap_checked, i32_rem_checked]
    rw [if_pos hp]
    rcases hp with h | ⟨ha, hb⟩
    · exact absurd h h0
    · simp [ha, hb]
  · rw [wrap_checked_eq_wrap v b hp]
    constructor
    · intro hc
      exact absurd hc (Option.some_ne_none _)
    · rintro ⟨hb1, ha1⟩
      exact absurd (Or.inr ⟨ha1, hb1⟩) hp

/-- NaN never panics and wraps to texel 0. -/
theorem wrap_checked_nan (b : ℕ) (h1 : 1 ≤ b) (h2 : b < 2 ^ 32) :
    wrap_checked F32.nan b = some 0 := by
  rw [wrap_checked_eq_wrap]
  · rw [wrap_nan]
  · intro hp
    rcases hp with h | ⟨ha, hb⟩
    · exact u32_as_i32_ne_zero b h1 h2 h
    · simp only [F32.mulNat, F32.asI32] at ha
      omega

/-- Claim C10 (counterexample): the original totality claim is false on
the code.  At `bound = u32::MAX` the bound reinterprets to `-1`, and the
input `-1.0` scales to `-(2³²-1)`, which saturates to `i32::MIN`; Rust
then evaluates `i32::MIN % -1`, which overflows and panics in every
build profile, so `wrap` returns no value in `[0, bound)` at this
positive bound. -/
theorem c10_wrap_panics_at_max_bound :
    u32_as_i32 (2 ^ 32 - 1) = -1 ∧
    F32.asI32 (F32.mulNat (F32.fin (-1)) (2 ^ 32 - 1)) = -2 ^ 31 ∧
    wrap_checked (F32.fin (-1)) (2 ^ 32 - 1) = none := by
  have hA : F32.asI32 (F32.mulNat (F32.fin (-1)) (2 ^ 32 - 1)) = -2 ^ 31 := by
    simp only [F32.mulNat, F32.asI32]
    rw [show (-1 : ℚ) * (((2 ^ 32 - 1 : ℕ)) : ℚ) = ((-4294967295 : ℤ) : ℚ) by norm_num,
      truncRat_intCast]
    decide
  refine ⟨by decide, hA, ?_⟩
  simp only [wrap_checked, i32_rem_checked, hA]
  decide

/-- Claim C10 (amended): `wrap` is total and in-range over every `f32`
value — finite, infinite or NaN — and every positive `u32` bound, except
for the single panic case where the bound reinterprets to `-1`
(`bound = u32::MAX`) and the scaled coordinate saturates to `i32::MIN`
(there Rust's `%` overflows and the program aborts).  Whenever `wrap`
returns, its value is the total model's value and lies in `[0, bound)`;
NaN maps to texel 0; consequently `Coloration::color`'s sampled texel
indices are in bounds whenever the sampling completes. -/
theorem c10_wrap_checked_spec (v : F32) (bound : ℕ)
    (hb1 : 1 ≤ bound) (hb2 : bound < 2 ^ 32)
    (tex : Texture) (coords : TextureCoordinates)
    (hw1 : 1 ≤ tex.width) (hw2 : tex.width < 2 ^ 32)
    (hh1 : 1 ≤ tex.height) (hh2 : tex.height < 2 ^ 32) :
    (∀ r, wrap_checked v bound = some r → wrap v bound = r ∧ r < bound) ∧
    (wrap_checked v bound = none ↔
      (u32_as_i32 bound = -1 ∧ (F32.mulNat v bound).asI32 = -2 ^ 31)) ∧
    wrap_checked F32.nan bound = some 0 ∧
    (∀ r, wrap_checked (F32.fin coords.x) tex.width = some r →
      (texture_indices tex coords).1 = r ∧ r < tex.width) ∧
    (∀ r, wrap_checked (F32.fin coords.y) tex.height = some r →
      (texture_indices tex coords).2 = r ∧ r < tex.height) := by
  refine ⟨?_, wrap_checked_none_iff v bound hb1 hb2, wrap_checked_nan bound hb1 hb2, ?_, ?_⟩
  · intro r h
    have he := wrap_checked_some v bound r h
    exact ⟨he, he ▸ wrap_lt v bound hb1 hb2⟩
  · intro r h
    have he := wrap_checked_some _ _ r h
    exact ⟨he, he ▸ wrap_lt _ _ hw1 hw2⟩
  · intro r h
    have he := wrap_checked_some _ _ r h
    exact ⟨he, he ▸ wrap_lt _ _ hh1 hh2⟩

/-- Witness for the amended C10 theorem: negative infinity at bound 7
does not panic and wraps to 5 (inside `[0, 7)`), and NaN wraps to 0. -/
theorem c10_wrap_checked_spec_witness :
    wrap F32.ninf 7 = 5 ∧ (5 : ℕ) < 7 ∧ wrap_checked F32.nan 7 = some 0 := by
  have h := c10_wrap_checked_spec F32.ninf 7 (by norm_num) (by norm_num) c10_tex ⟨-3/2, 5⟩
    (by norm_num [c10_tex]) (by norm_num [c10_tex]) (by norm_num [c10_tex])
    (by norm_num [c10_tex])
  have h5 : wrap_checked F32.ninf 7 = some 5 := by decide
  obtain ⟨he, hlt⟩ := h.1 5 h5
  exact ⟨he, hlt, h.2.2.1⟩
